import Mathlib

/-
Verification of the vmnet FFI stubs (src/lib/vmnet_stubs.c).

The file shallowly embeds the C stub functions.  Calls into the host
framework (vmnet.framework / libdispatch) are modelled by passing the
outcome the host delivers (status codes, callback payloads) as explicit
arguments, so every stub becomes a pure Lean function of the host's
behaviour.  Raising an OCaml exception is modelled with `Except`.
The counter/mutex/condition-variable protocol of `caml_set_event_handler`
and `caml_wait_for_event` is embedded a second time at instruction
granularity as a labelled transition system, so that blocking,
lock-discipline and coalescing properties can be stated.
-/

namespace VmnetStubs

/-- Status codes of the host framework (`vmnet_return_t` in vmnet.h,
the external header the stubs compile against).  `VMNET_SUCCESS` is 1000
and the failure codes follow it. -/
inductive vmnet_return_t where
  | VMNET_SUCCESS
  | VMNET_FAILURE
  | VMNET_MEM_FAILURE
  | VMNET_INVALID_ARGUMENT
  | VMNET_SETUP_INCOMPLETE
  | VMNET_INVALID_ACCESS
  | VMNET_PACKET_TOO_BIG
  | VMNET_BUFFER_EXHAUSTED
  | VMNET_TOO_MANY_PACKETS
  deriving DecidableEq, Repr

/-- Numeric value of a `vmnet_return_t`, as laid down in vmnet.h and as
marshalled by `Val_int` in the stubs. -/
def vmnet_return_t.code : vmnet_return_t → Int
  | .VMNET_SUCCESS => 1000
  | .VMNET_FAILURE => 1001
  | .VMNET_MEM_FAILURE => 1002
  | .VMNET_INVALID_ARGUMENT => 1003
  | .VMNET_SETUP_INCOMPLETE => 1004
  | .VMNET_INVALID_ACCESS => 1005
  | .VMNET_PACKET_TOO_BIG => 1006
  | .VMNET_BUFFER_EXHAUSTED => 1007
  | .VMNET_TOO_MANY_PACKETS => 1008

/-- OCaml exceptions the stubs can raise: `caml_failwith`,
the registered exception `vmnet_raw_return` (carrying a status code),
the registered constant exception `vmnet_api_not_supported`, and
`caml_raise_out_of_memory`. -/
inductive CamlExn where
  | Failure (msg : String)
  | RawReturn (status : Int)
  | ApiNotSupported
  | OutOfMemory
  deriving DecidableEq, Repr

/-- Embedding of `caml_raise_api_not_supported` (vmnet_stubs.c:61-67).
`registered` says whether `caml_named_value("vmnet_api_not_supported")`
finds the exception.  The function always raises, hence result type
`Except CamlExn Empty`. -/
def caml_raise_api_not_supported (registered : Bool) : Except CamlExn Empty :=
  if registered = false then
    Except.error (CamlExn.Failure "Vmnet.Error exception not registered")
  else
    Except.error CamlExn.ApiNotSupported

/-- The `struct vmnet_state` of vmnet_stubs.c:52-58, restricted to the
fields visible to the embedding: the interface reference (abstracted to a
number) and the two event counters.  The mutex and condition variable are
modelled in the transition system below. -/
structure vmnet_state where
  iref : Nat
  last_event : Nat
  seen_event : Nat
  deriving DecidableEq, Repr

/-- Embedding of `alloc_vmnet_state` (vmnet_stubs.c:69-83): a fresh handle
stores the interface reference and zero-initialises both counters. -/
def alloc_vmnet_state (i : Nat) : vmnet_state :=
  { iref := i, seen_event := 0, last_event := 0 }

/-- What the host delivers to `caml_init_vmnet`: the interface reference
returned by `vmnet_start_interface` (`none` models NULL), the status the
creation callback receives, and on success the MAC bytes (after the
sscanf parse), MTU and maximum packet size read from the callback's xpc
dictionary. -/
structure InitHost where
  iface : Option Nat
  iface_status : vmnet_return_t
  mac : Fin 6 → Nat
  mtu : Nat
  max_packet_size : Nat

/-- The 4-tuple `caml_init_vmnet` returns on success. -/
structure InitResult where
  handle : vmnet_state
  mac : List Nat
  mtu : Nat
  max_packet_size : Nat
  deriving Repr

/-- Embedding of `caml_init_vmnet` (vmnet_stubs.c:85-145) from the point
after `dispatch_semaphore_wait` returns.  If the interface reference is
NULL or the callback status differs from `VMNET_SUCCESS`, the stub raises
the registered exception `vmnet_raw_return` with the status code as
argument (or `caml_failwith` when the exception is not registered);
otherwise it builds the result tuple from the host-reported values. -/
def caml_init_vmnet (registered : Bool) (h : InitHost) : Except CamlExn InitResult :=
  if h.iface = none ∨ h.iface_status ≠ vmnet_return_t.VMNET_SUCCESS then
    if registered = false then
      Except.error (CamlExn.Failure "Vmnet.Error exception not registered")
    else
      Except.error (CamlExn.RawReturn h.iface_status.code)
  else
    match h.iface with
    | none => Except.error (CamlExn.Failure "unreachable")
    | some i =>
        Except.ok { handle := alloc_vmnet_state i
                    mac := List.ofFn h.mac
                    mtu := h.mtu
                    max_packet_size := h.max_packet_size }

/-- Embedding of `caml_vmnet_read` (vmnet_stubs.c:211-233) from the point
after the `vmnet_read` host call: `res` is the returned status, `pktcnt`
the packet count the host wrote into `pktcnt` (a C int), and `pkt_size`
the value of `v.vm_pkt_size` (a `size_t`, hence `Nat`) after the call.
The stub raises no exception; it returns an OCaml int. -/
def caml_vmnet_read (res : vmnet_return_t) (pktcnt : Int) (pkt_size : Nat) : Int :=
  if res ≠ vmnet_return_t.VMNET_SUCCESS then (-1) * res.code
  else if pktcnt ≤ 0 then 0
  else (pkt_size : Int)

/-- Embedding of `caml_vmnet_write` (vmnet_stubs.c:235-255) from the point
after the `vmnet_write` host call: `res` is the returned status and
`vm_pkt_size` the value of `v.vm_pkt_size` (a `size_t` set from the
buffer length).  The stub raises no exception; it returns an OCaml int. -/
def caml_vmnet_write (res : vmnet_return_t) (vm_pkt_size : Nat) : Int :=
  if res = vmnet_return_t.VMNET_SUCCESS then (vm_pkt_size : Int)
  else (-1) * res.code

/-- An OCaml heap field of the array built by `caml_shared_interface_list`:
either still the `Val_unit` that `caml_alloc` initialised it with, or a
stored string. -/
inductive CamlField where
  | unit
  | str (s : String)
  deriving DecidableEq, Repr

/-- Embedding of `caml_shared_interface_list` (vmnet_stubs.c:147-175).
`newAPI` is the compile-time test `__MAC_OS_X_VERSION_MAX_ALLOWED >= 101500`;
`l` is the list the host returns from `vmnet_copy_shared_interface_list`
(`none` models NULL).  The loop body is `Store_field(ret_array, 0, ...)`:
each iteration stores the current name at index 0 of the array. -/
def caml_shared_interface_list (newAPI : Bool) (registered : Bool)
    (l : Option (List String)) : Except CamlExn (List CamlField) :=
  if newAPI then
    match l with
    | some xs =>
        Except.ok (xs.foldl (fun arr p => arr.set 0 (CamlField.str p))
          (List.replicate xs.length CamlField.unit))
    | none => Except.ok []
  else
    if registered = false then
      Except.error (CamlExn.Failure "Vmnet.Error exception not registered")
    else
      Except.error CamlExn.ApiNotSupported

/-- What the host delivers to `caml_vmnet_interface_add_port_forwarding_rule`:
the immediate return value of `vmnet_interface_add_port_forwarding_rule`,
and the status the completion callback delivers (`none` models a callback
that never fires, so the semaphore wait never returns). -/
structure ForwardHost where
  res : vmnet_return_t
  cb_status : Option vmnet_return_t

/-- Embedding of `caml_vmnet_interface_add_port_forwarding_rule`
(vmnet_stubs.c:257-296).  `newAPI` is the compile-time availability test.
A result of `Except.ok none` models the call blocking forever on the
semaphore (the callback never fires); `Except.ok (some v)` models a
return with OCaml int `v`. -/
def caml_vmnet_interface_add_port_forwarding_rule (newAPI : Bool)
    (registered : Bool) (h : ForwardHost) : Except CamlExn (Option Int) :=
  if newAPI then
    if h.res ≠ vmnet_return_t.VMNET_SUCCESS then
      Except.ok (some h.res.code)
    else
      Except.ok (h.cb_status.map vmnet_return_t.code)
  else
    if registered = false then
      Except.error (CamlExn.Failure "Vmnet.Error exception not registered")
    else
      Except.error CamlExn.ApiNotSupported

/-- Program counter of a thread executing `caml_wait_for_event`
(vmnet_stubs.c:196-209):
`start` before `pthread_mutex_lock`; `test` holding the lock, at the
`while` condition; `waiting` inside `pthread_cond_wait` (lock released);
`leave` after the loop, holding the lock, before `seen_event = last_event`;
`setDone` after the assignment, still holding the lock; `done` after
`pthread_mutex_unlock`, i.e. returned. -/
inductive PC where
  | start
  | test
  | waiting
  | leave
  | setDone
  | done
  deriving DecidableEq, Repr

/-- A state of the concurrent system: the handle's two counters, whether
the waiter thread and the event callback hold the handle's mutex
`vms->vmm`, the waiter's program counter, and whether a
`pthread_cond_broadcast` has woken the waiter out of `pthread_cond_wait`
since it last started waiting. -/
structure SysState where
  seen_event : Nat
  last_event : Nat
  pc : PC
  waiterHolds : Bool
  cbHolds : Bool
  woken : Bool
  deriving DecidableEq, Repr

/-- Atomic steps of the system.  `wLock`..`wUnlock` are the waiter's steps
through `caml_wait_for_event`; `cbLock`, `cbBody`, `cbUnlock` are the
event callback installed by `caml_set_event_handler`
(vmnet_stubs.c:186-192) acquiring the mutex, running its body
(`vms->last_event ++; pthread_cond_broadcast(&vms->vmc)`), and releasing
the mutex. -/
inductive Label where
  | wLock
  | wTestTrue
  | wTestFalse
  | wWake
  | wSet
  | wUnlock
  | cbLock
  | cbBody
  | cbUnlock
  deriving DecidableEq, Repr

/-- Small-step semantics: `step l s = some t` when label `l` is enabled in
state `s` and leads to `t`; `none` when it is disabled (the thread is
blocked or not at that instruction).  Reads and writes of the two
counters occur only in `wTestTrue`, `wTestFalse`, `wSet` and `cbBody`,
whose guards require the acting thread to hold the mutex;
`pthread_cond_wait` releases the mutex while waiting and re-acquires it
before returning; `pthread_cond_broadcast` wakes a waiter only if it is
currently waiting. -/
def step : Label → SysState → Option SysState
  | Label.wLock, s =>
      if s.pc = PC.start ∧ s.waiterHolds = false ∧ s.cbHolds = false then
        some { s with pc := PC.test, waiterHolds := true }
      else none
  | Label.wTestTrue, s =>
      if s.pc = PC.test ∧ s.waiterHolds = true ∧ s.seen_event = s.last_event then
        some { s with pc := PC.waiting, waiterHolds := false, woken := false }
      else none
  | Label.wTestFalse, s =>
      if s.pc = PC.test ∧ s.waiterHolds = true ∧ s.seen_event ≠ s.last_event then
        some { s with pc := PC.leave }
      else none
  | Label.wWake, s =>
      if s.pc = PC.waiting ∧ s.woken = true ∧ s.waiterHolds = false ∧ s.cbHolds = false then
        some { s with pc := PC.test, waiterHolds := true, woken := false }
      else none
  | Label.wSet, s =>
      if s.pc = PC.leave ∧ s.waiterHolds = true then
        some { s with pc := PC.setDone, seen_event := s.last_event }
      else none
  | Label.wUnlock, s =>
      if s.pc = PC.setDone ∧ s.waiterHolds = true then
        some { s with pc := PC.done, waiterHolds := false }
      else none
  | Label.cbLock, s =>
      if s.cbHolds = false ∧ s.waiterHolds = false then
        some { s with cbHolds := true }
      else none
  | Label.cbBody, s =>
      if s.cbHolds = true then
        some { s with last_event := s.last_event + 1,
                      woken := s.woken || decide (s.pc = PC.waiting) }
      else none
  | Label.cbUnlock, s =>
      if s.cbHolds = true then
        some { s with cbHolds := false }
      else none

/-- Run a list of labels from a state; `none` when some step is disabled. -/
def run : List Label → SysState → Option SysState
  | [], s => some s
  | l :: ls, s =>
      match step l s with
      | some t => run ls t
      | none => none

/-- The system state of a freshly created handle (counters zeroed by
`alloc_vmnet_state`), with a waiter about to call `caml_wait_for_event`
and the mutex free. -/
def initState : SysState :=
  { seen_event := 0, last_event := 0, pc := PC.start,
    waiterHolds := false, cbHolds := false, woken := false }

/-- The trace of `n` complete deliveries of the event callback. -/
def cbDeliveries : Nat → List Label
  | 0 => []
  | n + 1 => Label.cbLock :: Label.cbBody :: Label.cbUnlock :: cbDeliveries n

/-- The waiter is still inside `caml_wait_for_event`, before the loop has
been left: it has not read a fresh counter difference yet. -/
def Pre (s : SysState) : Prop :=
  s.pc = PC.start ∨ s.pc = PC.test ∨ s.pc = PC.waiting

/-- The labels whose step reads or writes `seen_event` or `last_event`. -/
def accessesCounters : Label → Bool
  | Label.wTestTrue => true
  | Label.wTestFalse => true
  | Label.wSet => true
  | Label.cbBody => true
  | _ => false

/-- Invariant carried through every theorem about `caml_wait_for_event`:
the waiter at `leave` has seen the counters differ; the waiter at
`setDone` or `done` has already copied `last_event` into `seen_event`;
parameter `c` records the value of `seen_event` when the wait began. -/
def RecInv (c : Nat) (s : SysState) : Prop :=
  (Pre s → s.seen_event = c) ∧
  (s.pc = PC.leave → s.seen_event = c ∧ c < s.last_event) ∧
  ((s.pc = PC.setDone ∨ s.pc = PC.done) → c < s.last_event)

theorem step_preserves_le (l : Label) (s t : SysState)
    (h : step l s = some t) (hle : s.seen_event ≤ s.last_event) :
    t.seen_event ≤ t.last_event := by
  cases l <;> simp only [step] at h <;> split at h <;>
    first
    | exact Option.noConfusion h
    | (injection h with h; subst h; simp_all; omega)
    | (injection h with h; subst h; simp_all)

theorem step_preserves_mutex (l : Label) (s t : SysState)
    (h : step l s = some t)
    (hm : ¬ (s.waiterHolds = true ∧ s.cbHolds = true)) :
    ¬ (t.waiterHolds = true ∧ t.cbHolds = true) := by
  cases l <;> simp only [step] at h <;> split at h <;>
    first
    | exact Option.noConfusion h
    | (injection h with h; subst h; simp_all)

theorem step_blocked (l : Label) (s t : SysState)
    (h : step l s = some t) (hl : l ≠ Label.cbBody)
    (heq : s.seen_event = s.last_event) (hpre : Pre s) :
    t.seen_event = t.last_event ∧ Pre t := by
  cases l <;> simp only [step] at h <;> split at h <;>
    first
    | exact Option.noConfusion h
    | (injection h with h; subst h; simp_all [Pre]; omega)
    | (injection h with h; subst h; simp_all [Pre])

theorem run_blocked (ls : List Label) :
    ∀ s t : SysState, run ls s = some t → (∀ l ∈ ls, l ≠ Label.cbBody) →
    s.seen_event = s.last_event → Pre s →
    t.seen_event = t.last_event ∧ Pre t := by
  induction ls with
  | nil =>
      intro s t h _ heq hpre
      simp only [run, Option.some.injEq] at h
      subst h
      exact ⟨heq, hpre⟩
  | cons l ls ih =>
      intro s t h hcb heq hpre
      simp only [run] at h
      cases hstep : step l s with
      | none => rw [hstep] at h; exact absurd h (by simp)
      | some u =>
          rw [hstep] at h
          have hb := step_blocked l s u hstep (hcb l (by simp)) heq hpre
          exact ih u t h (fun x hx => hcb x (by simp [hx])) hb.1 hb.2

theorem step_recInv (c : Nat) (l : Label) (s t : SysState)
    (h : step l s = some t) (hle : s.seen_event ≤ s.last_event)
    (hinv : RecInv c s) : RecInv c t := by
  obtain ⟨h1, h2, h3⟩ := hinv
  cases l <;> simp only [step] at h <;> split at h <;>
    first
    | exact Option.noConfusion h
    | (injection h with h; subst h; simp_all [RecInv, Pre]; omega)
    | (injection h with h; subst h; simp_all [RecInv, Pre]; exact ⟨fun hp => Nat.lt_succ_of_lt (h2 hp).2, fun hp => Nat.lt_succ_of_lt (h3 hp)⟩)
    | (injection h with h; subst h; simp_all [RecInv, Pre])

theorem run_recInv (c : Nat) (ls : List Label) :
    ∀ s t : SysState, run ls s = some t →
    s.seen_event ≤ s.last_event → RecInv c s →
    t.seen_event ≤ t.last_event ∧ RecInv c t := by
  induction ls with
  | nil =>
      intro s t h hle hinv
      simp only [run, Option.some.injEq] at h
      subst h
      exact ⟨hle, hinv⟩
  | cons l ls ih =>
      intro s t h hle hinv
      simp only [run] at h
      cases hstep : step l s with
      | none => rw [hstep] at h; exact absurd h (by simp)
      | some u =>
          rw [hstep] at h
          exact ih u t h (step_preserves_le l s u hstep hle)
            (step_recInv c l s u hstep hle hinv)

theorem run_append (ls1 ls2 : List Label) :
    ∀ s : SysState, run (ls1 ++ ls2) s = Option.bind (run ls1 s) (run ls2) := by
  induction ls1 with
  | nil => intro s; simp [run]
  | cons l ls ih =>
      intro s
      simp only [List.cons_append, run]
      cases step l s <;> simp [ih]

theorem run_cbDeliveries (n : Nat) :
    ∀ s : SysState, s.pc = PC.start → s.waiterHolds = false → s.cbHolds = false →
    ∃ t, run (cbDeliveries n) s = some t ∧ t.seen_event = s.seen_event ∧
      t.last_event = s.last_event + n ∧ t.pc = PC.start ∧
      t.waiterHolds = false ∧ t.cbHolds = false ∧ t.woken = s.woken := by
  induction n with
  | zero =>
      intro s hpc hw hc
      exact ⟨s, rfl, rfl, rfl, hpc, hw, hc, rfl⟩
  | succ n ih =>
      intro s hpc hw hc
      have hstep : run (cbDeliveries (n + 1)) s
          = run (cbDeliveries n) { s with last_event := s.last_event + 1 } := by
        simp [cbDeliveries, run, step, hpc, hw, hc]
      obtain ⟨t, hrun, h1, h2, h3, h4, h5, h6⟩ :=
        ih { s with last_event := s.last_event + 1 } hpc hw hc
      refine ⟨t, by rw [hstep, hrun], by simpa using h1, ?_, h3, h4, h5, by simpa using h6⟩
      simp only [h2]
      omega

theorem wait_after_events (n : Nat) (s : SysState)
    (hn : 1 ≤ n) (hpc : s.pc = PC.start) (hw : s.waiterHolds = false)
    (hc : s.cbHolds = false) (heq : s.seen_event = s.last_event) :
    ∃ t, run (cbDeliveries n ++
        [Label.wLock, Label.wTestFalse, Label.wSet, Label.wUnlock]) s = some t ∧
      t.pc = PC.done ∧ t.seen_event = t.last_event ∧
      t.last_event = s.last_event + n ∧
      t.waiterHolds = false ∧ t.cbHolds = false := by
  obtain ⟨u, hrun, h1, h2, h3, h4, h5, h6⟩ := run_cbDeliveries n s hpc hw hc
  have hne : u.seen_event ≠ u.last_event := by omega
  refine ⟨{ u with pc := PC.done, seen_event := u.last_event, waiterHolds := false },
    ?_, rfl, rfl, h2, rfl, h5⟩
  rw [run_append, hrun]
  simp [run, step, h3, h4, h5, hne]

theorem run_done_last_advanced (ls : List Label) (s t : SysState)
    (h : run ls s = some t) (hpc : s.pc = PC.start)
    (hle : s.seen_event ≤ s.last_event) (hdone : t.pc = PC.done) :
    s.seen_event < t.last_event := by
  have hinv : RecInv s.seen_event s := by
    refine ⟨fun _ => rfl, fun hp => ?_, fun hp => ?_⟩
    · rw [hpc] at hp; cases hp
    · rcases hp with hp | hp <;> rw [hpc] at hp <;> cases hp
  exact (run_recInv s.seen_event ls s t h hle hinv).2.2.2 (Or.inr hdone)

theorem step_wSet_records (s t : SysState) (h : step Label.wSet s = some t) :
    t.seen_event = t.last_event ∧ s.pc = PC.leave ∧ s.waiterHolds = true := by
  simp only [step] at h
  split at h
  next hg => injection h with h; subst h; exact ⟨rfl, hg.1, hg.2⟩
  next => exact Option.noConfusion h

theorem step_cbBody_effect (s t : SysState) (h : step Label.cbBody s = some t) :
    t.last_event = s.last_event + 1 ∧ t.seen_event = s.seen_event ∧
    t.pc = s.pc ∧ t.waiterHolds = s.waiterHolds ∧ t.cbHolds = s.cbHolds ∧
    s.cbHolds = true ∧ (s.pc = PC.waiting → t.woken = true) := by
  simp only [step] at h
  split at h
  next hg =>
    injection h with h; subst h
    exact ⟨rfl, rfl, rfl, rfl, rfl, hg, fun hp => by simp [hp]⟩
  next => exact Option.noConfusion h

theorem step_counter_access_locked (l : Label) (s t : SysState)
    (h : step l s = some t) (ha : accessesCounters l = true) :
    (l = Label.cbBody → s.cbHolds = true) ∧
    (l ≠ Label.cbBody → s.waiterHolds = true) := by
  cases l <;> simp only [accessesCounters] at ha <;>
    simp only [step] at h <;> split at h <;>
    first
    | exact Option.noConfusion h
    | simp_all

/-- C1: `caml_wait_for_event` blocks while `seen_event` equals `last_event`
(with no event-callback delivery in the trace the waiter never returns);
it returns only after `last_event` has advanced past the `seen_event`
value the waiter last recorded; the assignment step records the current
`last_event` into `seen_event`; and every step that reads or writes the
two counters is taken with the handle's mutex held by the acting
thread. -/
theorem wait_for_event_spec :
    (∀ (ls : List Label) (s t : SysState), run ls s = some t →
       s.pc = PC.start → s.seen_event = s.last_event →
       (∀ l ∈ ls, l ≠ Label.cbBody) → t.pc ≠ PC.done) ∧
    (∀ (ls : List Label) (s t : SysState), run ls s = some t →
       s.pc = PC.start → s.seen_event ≤ s.last_event → t.pc = PC.done →
       s.seen_event < t.last_event) ∧
    (∀ s t : SysState, step Label.wSet s = some t →
       t.seen_event = t.last_event) ∧
    (∀ (l : Label) (s t : SysState), step l s = some t →
       accessesCounters l = true →
       (l = Label.cbBody → s.cbHolds = true) ∧
       (l ≠ Label.cbBody → s.waiterHolds = true)) := by
  refine ⟨?_, ?_, ?_, ?_⟩
  · intro ls s t h hpc heq hcb hdone
    have hb := run_blocked ls s t h hcb heq (Or.inl hpc)
    simp [Pre, hdone] at hb
  · exact fun ls s t h hpc hle hdone => run_done_last_advanced ls s t h hpc hle hdone
  · exact fun s t h => (step_wSet_records s t h).1
  · exact fun l s t h ha => step_counter_access_locked l s t h ha

/-- Witness for C1: the blocking conjunct on a concrete event-free trace,
the advance conjunct on a concrete completing trace, the recording
conjunct at a concrete `wSet` step, and the lock-discipline conjunct at a
concrete `cbBody` step. -/
theorem wait_for_event_spec_witness :
    (SysState.mk 0 0 PC.waiting false false false).pc ≠ PC.done ∧
    (SysState.mk 0 1 PC.start false false false).seen_event <
      (SysState.mk 1 1 PC.done false false false).last_event ∧
    (SysState.mk 1 1 PC.setDone true false false).seen_event =
      (SysState.mk 1 1 PC.setDone true false false).last_event ∧
    ((Label.cbBody = Label.cbBody →
        (SysState.mk 0 0 PC.start false true false).cbHolds = true) ∧
     (Label.cbBody ≠ Label.cbBody →
        (SysState.mk 0 0 PC.start false true false).waiterHolds = true)) := by
  refine ⟨?_, ?_, ?_, ?_⟩
  · exact wait_for_event_spec.1 [Label.wLock, Label.wTestTrue]
      (SysState.mk 0 0 PC.start false false false)
      (SysState.mk 0 0 PC.waiting false false false)
      (by decide) rfl rfl (by decide)
  · exact wait_for_event_spec.2.1 [Label.wLock, Label.wTestFalse, Label.wSet, Label.wUnlock]
      (SysState.mk 0 1 PC.start false false false)
      (SysState.mk 1 1 PC.done false false false)
      (by decide) rfl (by decide) rfl
  · exact wait_for_event_spec.2.2.1
      (SysState.mk 1 1 PC.leave true false false)
      (SysState.mk 1 1 PC.setDone true false false)
      (by decide)
  · exact wait_for_event_spec.2.2.2 Label.cbBody
      (SysState.mk 0 0 PC.start false true false)
      (SysState.mk 0 1 PC.start false true false)
      (by decide) (by decide)

/-- C2: each delivery of the packets-available event callback increments
`last_event` by exactly one and broadcasts the condition variable (waking
a waiter that is inside `pthread_cond_wait`), and it does so while holding
the handle's mutex; it modifies neither `seen_event` nor any other part of
the handle, and the mutex is never held by both threads at once. -/
theorem event_callback_spec :
    (∀ s t : SysState, step Label.cbBody s = some t →
       t.last_event = s.last_event + 1 ∧ t.seen_event = s.seen_event ∧
       t.pc = s.pc ∧ t.waiterHolds = s.waiterHolds ∧ t.cbHolds = s.cbHolds ∧
       s.cbHolds = true ∧ (s.pc = PC.waiting → t.woken = true)) ∧
    (∀ (l : Label) (s t : SysState), step l s = some t →
       ¬ (s.waiterHolds = true ∧ s.cbHolds = true) →
       ¬ (t.waiterHolds = true ∧ t.cbHolds = true)) :=
  ⟨step_cbBody_effect, step_preserves_mutex⟩

/-- Witness for C2: one callback delivery at a concrete state with a
waiter inside `pthread_cond_wait`, and mutual exclusion across a concrete
`cbLock` step. -/
theorem event_callback_spec_witness :
    ((SysState.mk 3 9 PC.waiting false true true).last_event =
       (SysState.mk 3 8 PC.waiting false true false).last_event + 1 ∧
     (SysState.mk 3 9 PC.waiting false true true).seen_event =
       (SysState.mk 3 8 PC.waiting false true false).seen_event ∧
     (SysState.mk 3 9 PC.waiting false true true).woken = true) ∧
    ¬ ((SysState.mk 0 0 PC.start false true false).waiterHolds = true ∧
       (SysState.mk 0 0 PC.start false true false).cbHolds = true) := by
  constructor
  · have h := event_callback_spec.1
      (SysState.mk 3 8 PC.waiting false true false)
      (SysState.mk 3 9 PC.waiting false true true)
      (by decide)
    exact ⟨h.1, h.2.1, h.2.2.2.2.2.2 rfl⟩
  · exact event_callback_spec.2 Label.cbLock
      (SysState.mk 0 0 PC.start false false false)
      (SysState.mk 0 0 PC.start false true false)
      (by decide) (by decide)

/-- C3: event coalescing: from a quiescent state (`seen_event =
last_event`), after `n ≥ 1` complete callback deliveries a single call of
`caml_wait_for_event` runs to completion; immediately after it returns
`seen_event = last_event` again, so a subsequent wait cannot complete
until a further callback delivery occurs. -/
theorem event_coalescing (n : Nat) (s : SysState)
    (hn : 1 ≤ n) (hpc : s.pc = PC.start) (hw : s.waiterHolds = false)
    (hc : s.cbHolds = false) (heq : s.seen_event = s.last_event) :
    ∃ t, run (cbDeliveries n ++
        [Label.wLock, Label.wTestFalse, Label.wSet, Label.wUnlock]) s = some t ∧
      t.pc = PC.done ∧ t.seen_event = t.last_event ∧
      t.last_event = s.last_event + n ∧
      (∀ (ls : List Label) (u : SysState),
        run ls { t with pc := PC.start } = some u →
        (∀ l ∈ ls, l ≠ Label.cbBody) → u.pc ≠ PC.done) := by
  obtain ⟨t, hrun, hdone, hseen, hlast, hwh, hch⟩ :=
    wait_after_events n s hn hpc hw hc heq
  refine ⟨t, hrun, hdone, hseen, hlast, ?_⟩
  intro ls u h hcb hdone2
  have hb := run_blocked ls { t with pc := PC.start } u h hcb hseen (Or.inl rfl)
  simp [Pre, hdone2] at hb

/-- Witness for C3: two callback firings before the waiter runs are
consumed by one wait starting from a fresh handle. -/
theorem event_coalescing_witness :
    ∃ t, run (cbDeliveries 2 ++
        [Label.wLock, Label.wTestFalse, Label.wSet, Label.wUnlock]) initState = some t ∧
      t.pc = PC.done ∧ t.seen_event = t.last_event ∧
      t.last_event = initState.last_event + 2 ∧
      (∀ (ls : List Label) (u : SysState),
        run ls { t with pc := PC.start } = some u →
        (∀ l ∈ ls, l ≠ Label.cbBody) → u.pc ≠ PC.done) :=
  event_coalescing 2 initState (by decide) rfl rfl rfl rfl

/-- C10: a freshly allocated handle has both counters zero; every step of
the system preserves `seen_event ≤ last_event`; and a wait starting on a
fresh handle cannot complete before at least one event has been
delivered. -/
theorem counters_invariant :
    (∀ i : Nat, (alloc_vmnet_state i).seen_event = 0 ∧
       (alloc_vmnet_state i).last_event = 0) ∧
    (∀ (l : Label) (s t : SysState), step l s = some t →
       s.seen_event ≤ s.last_event → t.seen_event ≤ t.last_event) ∧
    (∀ (ls : List Label) (t : SysState), run ls initState = some t →
       (∀ l ∈ ls, l ≠ Label.cbBody) → t.pc ≠ PC.done) := by
  refine ⟨fun i => ⟨rfl, rfl⟩, step_preserves_le, ?_⟩
  intro ls t h hcb hdone
  have hb := run_blocked ls initState t h hcb rfl (Or.inl rfl)
  simp [Pre, hdone] at hb

/-- Witness for C10: the invariant is preserved across a concrete
`cbBody` step, and a concrete event-free trace from a fresh handle leaves
the waiter unfinished. -/
theorem counters_invariant_witness :
    ((alloc_vmnet_state 7).seen_event = 0 ∧ (alloc_vmnet_state 7).last_event = 0) ∧
    (SysState.mk 0 1 PC.start false true false).seen_event ≤
      (SysState.mk 0 1 PC.start false true false).last_event ∧
    (SysState.mk 0 0 PC.waiting false false false).pc ≠ PC.done := by
  refine ⟨counters_invariant.1 7, ?_, ?_⟩
  · exact counters_invariant.2.1 Label.cbBody
      (SysState.mk 0 0 PC.start false true false)
      (SysState.mk 0 1 PC.start false true false)
      (by decide) (by decide)
  · exact counters_invariant.2.2 [Label.wLock, Label.wTestTrue]
      (SysState.mk 0 0 PC.waiting false false false)
      (by decide) (by decide)

/-- C4: `caml_init_vmnet` raises the registered exception
`vmnet_raw_return` carrying the host status code exactly when the host
returns a NULL interface reference or a status other than
`VMNET_SUCCESS`; on success it raises nothing and returns the 4-tuple of
handle, 6-byte MAC, MTU and maximum packet size reported by the host
callback. -/
theorem init_vmnet_raises_iff_failure (h : InitHost) :
    (h.iface = none ∨ h.iface_status ≠ vmnet_return_t.VMNET_SUCCESS →
       caml_init_vmnet true h =
         Except.error (CamlExn.RawReturn h.iface_status.code)) ∧
    (∀ i : Nat, h.iface = some i →
       h.iface_status = vmnet_return_t.VMNET_SUCCESS →
       caml_init_vmnet true h =
         Except.ok { handle := alloc_vmnet_state i, mac := List.ofFn h.mac,
                     mtu := h.mtu, max_packet_size := h.max_packet_size } ∧
       (List.ofFn h.mac).length = 6) := by
  constructor
  · intro hfail
    rcases hfail with hf | hf
    · simp [caml_init_vmnet, hf]
    · simp [caml_init_vmnet, hf]
  · intro i hi hs
    exact ⟨by simp [caml_init_vmnet, hi, hs], by simp⟩

/-- Witness for C4: a NULL interface reference with status
`VMNET_FAILURE` raises `vmnet_raw_return 1001`; a successful creation
returns the reported tuple. -/
theorem init_vmnet_raises_iff_failure_witness :
    caml_init_vmnet true
        (InitHost.mk none vmnet_return_t.VMNET_FAILURE (fun _ => 0) 0 0) =
      Except.error (CamlExn.RawReturn (vmnet_return_t.VMNET_FAILURE).code) ∧
    (caml_init_vmnet true
        (InitHost.mk (some 5) vmnet_return_t.VMNET_SUCCESS (fun j => j.val) 1500 1514) =
      Except.ok { handle := alloc_vmnet_state 5,
                  mac := List.ofFn (fun j : Fin 6 => j.val),
                  mtu := 1500, max_packet_size := 1514 } ∧
     (List.ofFn (fun j : Fin 6 => j.val)).length = 6) := by
  constructor
  · exact (init_vmnet_raises_iff_failure
      (InitHost.mk none vmnet_return_t.VMNET_FAILURE (fun _ => 0) 0 0)).1
      (Or.inl rfl)
  · exact (init_vmnet_raises_iff_failure
      (InitHost.mk (some 5) vmnet_return_t.VMNET_SUCCESS (fun j => j.val) 1500 1514)).2
      5 rfl rfl

/-- C5: `caml_vmnet_read` and `caml_vmnet_write` raise no exception (they
are total functions into OCaml ints): on any status other than
`VMNET_SUCCESS` both return the negated status code, which is negative,
and on `VMNET_SUCCESS` the write returns the packet size, which is
non-negative, so the sign of the result separates success from
failure. -/
theorem read_write_forward_status (res : vmnet_return_t) (pktcnt : Int)
    (pkt_size vm_pkt_size : Nat) :
    (res ≠ vmnet_return_t.VMNET_SUCCESS →
       caml_vmnet_read res pktcnt pkt_size = (-1) * res.code ∧
       caml_vmnet_read res pktcnt pkt_size < 0 ∧
       caml_vmnet_write res vm_pkt_size = (-1) * res.code ∧
       caml_vmnet_write res vm_pkt_size < 0) ∧
    (res = vmnet_return_t.VMNET_SUCCESS →
       caml_vmnet_write res vm_pkt_size = (vm_pkt_size : Int) ∧
       0 ≤ caml_vmnet_write res vm_pkt_size) := by
  constructor
  · intro hne
    have hpos : 1000 < res.code := by
      cases res
      · exact absurd rfl hne
      all_goals decide
    refine ⟨by simp [caml_vmnet_read, hne], ?_,
            by simp [caml_vmnet_write, hne], ?_⟩
    · simp only [caml_vmnet_read, if_pos hne]
      omega
    · simp [caml_vmnet_write, hne]
      omega
  · intro he
    subst he
    refine ⟨by simp [caml_vmnet_write], ?_⟩
    simp [caml_vmnet_write]

/-- Witness for C5: a failed read and write with status `VMNET_FAILURE`
return `-1001`; a successful write of a 42-byte packet returns 42. -/
theorem read_write_forward_status_witness :
    (caml_vmnet_read vmnet_return_t.VMNET_FAILURE 1 42 =
       (-1) * (vmnet_return_t.VMNET_FAILURE).code ∧
     caml_vmnet_read vmnet_return_t.VMNET_FAILURE 1 42 < 0 ∧
     caml_vmnet_write vmnet_return_t.VMNET_FAILURE 42 =
       (-1) * (vmnet_return_t.VMNET_FAILURE).code ∧
     caml_vmnet_write vmnet_return_t.VMNET_FAILURE 42 < 0) ∧
    (caml_vmnet_write vmnet_return_t.VMNET_SUCCESS 42 = (42 : Int) ∧
     0 ≤ caml_vmnet_write vmnet_return_t.VMNET_SUCCESS 42) :=
  ⟨(read_write_forward_status vmnet_return_t.VMNET_FAILURE 1 42 42).1 (by decide),
   (read_write_forward_status vmnet_return_t.VMNET_SUCCESS 1 42 42).2 rfl⟩

/-- C9: a `vmnet_read` that returns `VMNET_SUCCESS` but reports a packet
count of zero or less makes `caml_vmnet_read` return exactly 0, an
outcome that is neither a negative failure return nor a positive packet
size. -/
theorem read_zero_packets (pktcnt : Int) (pkt_size : Nat)
    (hcnt : pktcnt ≤ 0) :
    caml_vmnet_read vmnet_return_t.VMNET_SUCCESS pktcnt pkt_size = 0 ∧
    ¬ (caml_vmnet_read vmnet_return_t.VMNET_SUCCESS pktcnt pkt_size < 0) ∧
    ¬ (0 < caml_vmnet_read vmnet_return_t.VMNET_SUCCESS pktcnt pkt_size) := by
  simp [caml_vmnet_read, hcnt]

/-- Witness for C9: a successful read reporting zero packets into a
buffer of length 42 returns 0. -/
theorem read_zero_packets_witness :
    caml_vmnet_read vmnet_return_t.VMNET_SUCCESS 0 42 = 0 ∧
    ¬ (caml_vmnet_read vmnet_return_t.VMNET_SUCCESS 0 42 < 0) ∧
    ¬ (0 < caml_vmnet_read vmnet_return_t.VMNET_SUCCESS 0 42) :=
  read_zero_packets 0 42 (by decide)

/-- C7: compiled against a pre-10.15 SDK (`newAPI = false`), both
`caml_shared_interface_list` and
`caml_vmnet_interface_add_port_forwarding_rule` raise the registered
exception `vmnet_api_not_supported` (via `caml_raise_api_not_supported`)
and never return a value. -/
theorem old_api_raises_not_supported (l : Option (List String))
    (h : ForwardHost) :
    caml_shared_interface_list false true l =
      Except.error CamlExn.ApiNotSupported ∧
    caml_vmnet_interface_add_port_forwarding_rule false true h =
      Except.error CamlExn.ApiNotSupported ∧
    caml_raise_api_not_supported true =
      Except.error CamlExn.ApiNotSupported :=
  ⟨rfl, rfl, rfl⟩

/-- Witness for C7 at a concrete interface list and forwarding rule. -/
theorem old_api_raises_not_supported_witness :
    caml_shared_interface_list false true (some ["en0"]) =
      Except.error CamlExn.ApiNotSupported ∧
    caml_vmnet_interface_add_port_forwarding_rule false true
        (ForwardHost.mk vmnet_return_t.VMNET_SUCCESS none) =
      Except.error CamlExn.ApiNotSupported ∧
    caml_raise_api_not_supported true =
      Except.error CamlExn.ApiNotSupported :=
  old_api_raises_not_supported (some ["en0"])
    (ForwardHost.mk vmnet_return_t.VMNET_SUCCESS none)

/-- C8: with the newer API available, the port-forwarding stub returns
the status the completion callback delivered once the semaphore wait ends
(and does not return while the callback has not fired); if the host
refuses to queue the command, the immediate status is returned without
waiting on the callback. -/
theorem port_forwarding_returns_callback_status (h : ForwardHost) :
    (h.res ≠ vmnet_return_t.VMNET_SUCCESS →
       caml_vmnet_interface_add_port_forwarding_rule true true h =
         Except.ok (some h.res.code)) ∧
    (h.res = vmnet_return_t.VMNET_SUCCESS →
       (h.cb_status = none →
          caml_vmnet_interface_add_port_forwarding_rule true true h =
            Except.ok none) ∧
       (∀ st : vmnet_return_t, h.cb_status = some st →
          caml_vmnet_interface_add_port_forwarding_rule true true h =
            Except.ok (some st.code))) := by
  constructor
  · intro hne
    simp [caml_vmnet_interface_add_port_forwarding_rule, hne]
  · intro he
    constructor
    · intro hcb
      simp [caml_vmnet_interface_add_port_forwarding_rule, he, hcb]
    · intro st hcb
      simp [caml_vmnet_interface_add_port_forwarding_rule, he, hcb]

/-- Witness for C8: an immediate refusal returns that status; a queued
command whose callback never fires does not return; a queued command
whose callback delivers `VMNET_INVALID_ARGUMENT` returns its code. -/
theorem port_forwarding_returns_callback_status_witness :
    caml_vmnet_interface_add_port_forwarding_rule true true
        (ForwardHost.mk vmnet_return_t.VMNET_FAILURE none) =
      Except.ok (some (vmnet_return_t.VMNET_FAILURE).code) ∧
    caml_vmnet_interface_add_port_forwarding_rule true true
        (ForwardHost.mk vmnet_return_t.VMNET_SUCCESS none) =
      Except.ok none ∧
    caml_vmnet_interface_add_port_forwarding_rule true true
        (ForwardHost.mk vmnet_return_t.VMNET_SUCCESS
          (some vmnet_return_t.VMNET_INVALID_ARGUMENT)) =
      Except.ok (some (vmnet_return_t.VMNET_INVALID_ARGUMENT).code) :=
  ⟨(port_forwarding_returns_callback_status
      (ForwardHost.mk vmnet_return_t.VMNET_FAILURE none)).1 (by decide),
   ((port_forwarding_returns_callback_status
      (ForwardHost.mk vmnet_return_t.VMNET_SUCCESS none)).2 rfl).1 rfl,
   ((port_forwarding_returns_callback_status
      (ForwardHost.mk vmnet_return_t.VMNET_SUCCESS
        (some vmnet_return_t.VMNET_INVALID_ARGUMENT))).2 rfl).2
     vmnet_return_t.VMNET_INVALID_ARGUMENT rfl⟩

/-- C6 (code bug): on the two-interface list ["en0", "en1"] the loop of
`caml_shared_interface_list` stores every name at index 0
(`Store_field(ret_array, 0, ...)` instead of index `i`), so the returned
array is `[str "en1", unit]` and not one name per slot as the claim (and
the evident intent of the loop) states. -/
theorem shared_interface_list_stores_at_zero :
    caml_shared_interface_list true true (some ["en0", "en1"]) =
      Except.ok [CamlField.str "en1", CamlField.unit] ∧
    caml_shared_interface_list true true (some ["en0", "en1"]) ≠
      Except.ok [CamlField.str "en0", CamlField.str "en1"] := by
  refine ⟨rfl, fun hc => ?_⟩
  exact absurd (Except.ok.inj hc) (by decide)

end VmnetStubs
